import Mathlib

/-!
Shallow embedding of the OI-reversal trading repository
(`Bot.py`, `oi_reversal_strategy.py`, `trading_database.py`).

Numeric values (Python floats/ints) are modelled as rationals; Python
exceptions (ZeroDivisionError, NameError) are modelled with `Except Unit`;
dictionary keys that may be absent are modelled with `Option`.  Free-text
f-string messages (log lines, exit-reason strings, the decision `reason`
text) are presentation only and are modelled by structured values.
-/

/-- Decidable equality on `Except`, so concrete runs of the fallible
embedded functions can be settled by `decide`. -/
instance {ε α : Type} [DecidableEq ε] [DecidableEq α] :
    DecidableEq (Except ε α) := fun a b =>
  match a, b with
  | .error e, .error f =>
    match decEq e f with
    | isTrue h => isTrue (by rw [h])
    | isFalse h => isFalse (fun hh => h (Except.error.inj hh))
  | .error _, .ok _ => isFalse (fun hh => Except.noConfusion hh)
  | .ok _, .error _ => isFalse (fun hh => Except.noConfusion hh)
  | .ok x, .ok y =>
    match decEq x y with
    | isTrue h => isTrue (by rw [h])
    | isFalse h => isFalse (fun hh => h (Except.ok.inj hh))

/-- Python `round(x, d)`: round half to even at `d` decimal digits
(`Rat.floor` rather than `Int.floor` so the definition evaluates by
kernel reduction). -/
def pyRound (x : ℚ) (d : ℕ) : ℚ :=
  let scale : ℚ := ((10^d : ℕ) : ℚ)
  let y := x * scale
  let f : ℤ := y.floor
  let r := y - (f : ℚ)
  let n : ℤ :=
    if r < 1/2 then f
    else if 1/2 < r then f + 1
    else if f % 2 = 0 then f else f + 1
  (n : ℚ) / scale

/-- Python `int(x)`: truncation toward zero. -/
def pyInt (x : ℚ) : ℤ :=
  if 0 ≤ x then x.floor else -((-x).floor)

/-- A processed per-strike record, as built by `process_options_data` and
consumed by the analytics and the strategy (`strike`, `call_oi`, `put_oi`,
`oi_ratio`, `call_volume`, `put_volume`, `spot_price` keys).  The
`timestamp` key is wall-clock presentation data and is not modelled. -/
structure Strike where
  strike : ℚ
  callOi : ℚ
  putOi : ℚ
  oiRatio : ℚ
  callVolume : ℚ
  putVolume : ℚ
  spotPrice : ℚ
deriving DecidableEq, Repr

/-- Result dictionary of `calculate_market_sentiment`.  The two early
returns do not carry the `put_call_ratio` key, hence the `Option`. -/
structure SentimentResult where
  sentiment : String
  score : ℚ
  confidence : ℚ
  putCallRatio : Option ℚ
deriving DecidableEq, Repr

/-- Result dictionary of `calculate_volatility`; the two early returns do
not carry the `oi_concentration` key. -/
structure VolatilityResult where
  iv : ℚ
  volatilityRegime : String
  oiConcentration : Option ℚ
deriving DecidableEq, Repr

/-- `Bot.StreetSmartTradingEngine.calculate_market_sentiment`.  The
`spot_price` argument is accepted but unused, as in the source.  The
division `total_put_oi / total_call_oi` raises ZeroDivisionError when the
call total is zero, and the BULLISH branch divides `1 / put_call_ratio`,
which raises when the ratio is zero; both are modelled as `.error ()`. -/
def calculateMarketSentiment (strikesData : List Strike) (_spotPrice : ℚ) :
    Except Unit SentimentResult :=
  if strikesData = [] then
    .ok ⟨"NEUTRAL", 50, 0, none⟩
  else
    let totalCallOi := (strikesData.map (·.callOi)).sum
    let totalPutOi := (strikesData.map (·.putOi)).sum
    if totalCallOi + totalPutOi = 0 then
      .ok ⟨"NEUTRAL", 50, 0, none⟩
    else if totalCallOi = 0 then
      .error ()
    else
      let putCallRatio := totalPutOi / totalCallOi
      let scoreE : Except Unit (String × ℚ) :=
        if 12/10 < putCallRatio then
          .ok ("BEARISH", min 100 (50 + (putCallRatio - 1) * 25))
        else if putCallRatio < 8/10 then
          if putCallRatio = 0 then .error ()
          else .ok ("BULLISH", max 0 (50 - (1/putCallRatio - 1) * 25))
        else
          .ok ("NEUTRAL", 50)
      match scoreE with
      | .error e => .error e
      | .ok (sentiment, score) =>
        let totalOi := totalCallOi + totalPutOi
        let confidence := min 100 (totalOi / 1000000 * 100)
        .ok ⟨sentiment, pyRound score 1, pyRound confidence 1,
             some (pyRound putCallRatio 2)⟩

/-- `Bot.StreetSmartTradingEngine.calculate_volatility`.  Total: every
division is guarded in the source (`if max(...) > 0 else 0`), and the
`np.mean` calls run on a list checked non-empty. -/
def calculateVolatility (strikesData : List Strike) (spotPrice : ℚ) :
    VolatilityResult :=
  if strikesData = [] then
    ⟨0, "LOW", none⟩
  else
    let atmStrikes := strikesData.filter
      (fun s => |s.strike - spotPrice| < spotPrice * (2/100))
    if atmStrikes = [] then
      ⟨0, "UNKNOWN", none⟩
    else
      let avgCallOi := (atmStrikes.map (·.callOi)).sum / atmStrikes.length
      let avgPutOi := (atmStrikes.map (·.putOi)).sum / atmStrikes.length
      let oiConcentration :=
        if 0 < max avgCallOi avgPutOi then
          min avgCallOi avgPutOi / max avgCallOi avgPutOi
        else 0
      let (regime, iv) :=
        if 7/10 < oiConcentration then ("HIGH", 25 + oiConcentration * 15)
        else if 4/10 < oiConcentration then ("MEDIUM", 15 + oiConcentration * 10)
        else ("LOW", 5 + oiConcentration * 10)
      ⟨pyRound iv 1, regime, some (pyRound oiConcentration 2)⟩

/-- A signal produced by the inline detector of `process_options_data`
(the best-signal pipeline in `Bot.py`). -/
structure BSignal where
  type : String
  strike : ℚ
  signalName : String
  oiRatio : ℚ
  confidence : ℚ
  strength : String
deriving DecidableEq, Repr

/-- Engine risk parameters set in `Bot.StreetSmartTradingEngine.__init__`. -/
structure EngineParams where
  maxRiskPerTrade : ℚ
  minRewardRatio : ℚ
  maxPositionSize : ℚ
deriving DecidableEq, Repr

def defaultEngineParams : EngineParams := ⟨2/100, 3/2, 1/10⟩

/-- Result dictionary of `generate_trading_decision`.  The keys
`reward_risk_ratio`, `signal_type`, `strike_price` are absent from the
no-signal early return, hence the `Option`s.  The free-text `reason`
string is presentation only and not modelled. -/
structure TradingDecision where
  action : String
  confidence : ℚ
  riskLevel : String
  positionSize : ℚ
  stopLoss : Option ℚ
  target : Option ℚ
  rewardRiskRatio : Option ℚ
  signalType : Option String
  strikePrice : Option ℚ
deriving DecidableEq, Repr

/-- Python `max(signals, key=lambda x: x['confidence'])`: the first
maximal element wins ties. -/
def maxByConfidence (best : BSignal) : List BSignal → BSignal
  | [] => best
  | s :: rest =>
    maxByConfidence (if best.confidence < s.confidence then s else best) rest

/-- `Bot.StreetSmartTradingEngine.generate_trading_decision`.  Note the
risk-multiplier branch compares the sentiment label (`BULLISH` / `BEARISH`
/ `NEUTRAL`) with the signal type (`CALL` / `PUT`) by string equality,
exactly as the source line `sentiment['sentiment'] == best_signal['type']`
does. -/
def generateTradingDecision (ep : EngineParams) (signals : List BSignal)
    (sentiment : SentimentResult) (volatility : VolatilityResult)
    (spotPrice : ℚ) : TradingDecision :=
  match signals with
  | [] => ⟨"HOLD", 60, "LOW", 0, none, none, none, none, none⟩
  | s0 :: rest =>
    let best := maxByConfidence s0 rest
    let riskMultiplier : ℚ :=
      if volatility.volatilityRegime = "HIGH" then 7/10
      else if sentiment.sentiment = best.type then 12/10
      else 1
    let confidenceFactor := best.confidence / 100
    let positionSizePct :=
      min ep.maxPositionSize (ep.maxRiskPerTrade * confidenceFactor * riskMultiplier)
    let (stopLoss, target, riskAmount, rewardAmount) :=
      if best.type = "CALL" then
        (spotPrice * (97/100), spotPrice * (106/100),
         spotPrice - spotPrice * (97/100), spotPrice * (106/100) - spotPrice)
      else
        (spotPrice * (103/100), spotPrice * (94/100),
         spotPrice * (103/100) - spotPrice, spotPrice - spotPrice * (94/100))
    let rewardRiskRatio := if 0 < riskAmount then rewardAmount / riskAmount else 0
    let (action, riskLevel, finalSize) :=
      if 80 ≤ best.confidence ∧ ep.minRewardRatio ≤ rewardRiskRatio then
        ((if best.type = "CALL" then "BUY" else "SELL"),
         (if 5/100 < positionSizePct then "MEDIUM" else "LOW"),
         positionSizePct)
      else if 70 ≤ best.confidence then ("WATCH", "LOW", 0)
      else ("HOLD", "LOW", 0)
    ⟨action, best.confidence, riskLevel, pyRound (finalSize * 100) 1,
     some (pyRound stopLoss 2), some (pyRound target 2),
     some (pyRound rewardRiskRatio 1), some best.type, some best.strike⟩

/-- One raw per-strike entry of the provider snapshot
(`records.data[i]`): `strikePrice` plus the `openInterest` and
`totalTradedVolume` of the `CE` and `PE` legs (`.get(..., 0)` defaults). -/
structure RawStrike where
  strikePrice : ℚ
  ceOi : ℚ
  peOi : ℚ
  ceVol : ℚ
  peVol : ℚ
deriving DecidableEq, Repr

/-- The `records` object of the raw snapshot: `underlyingValue` and the
per-strike entries. -/
structure RawRecords where
  underlyingValue : ℚ
  data : List RawStrike
deriving DecidableEq, Repr

/-- Return value of `process_options_data`. -/
structure ProcessedData where
  symbol : String
  data : List Strike
  signals : List BSignal
  sentiment : SentimentResult
  volatility : VolatilityResult
  tradingDecision : TradingDecision
  spotPrice : ℚ
deriving DecidableEq, Repr

/-- The inline signal bands of `process_options_data` (ratio > 2.5, > 2.0,
< 0.4, < 0.5), including the `if oi_ratio > 0 else 95/85` sentinel guards. -/
def botSignalForStrike (strike oiRatio : ℚ) : Option BSignal :=
  if 5/2 < oiRatio then
    some ⟨"PUT", strike, "STRONG BEARISH REVERSAL", oiRatio,
          min 95 (70 + (oiRatio - 5/2) * 10), "VERY_STRONG"⟩
  else if 2 < oiRatio then
    some ⟨"PUT", strike, "BEARISH REVERSAL", oiRatio,
          min 85 (60 + (oiRatio - 2) * 12), "STRONG"⟩
  else if oiRatio < 4/10 then
    some ⟨"CALL", strike, "STRONG BULLISH REVERSAL", oiRatio,
          (if 0 < oiRatio then min 95 (70 + (1/oiRatio - 5/2) * 10) else 95),
          "VERY_STRONG"⟩
  else if oiRatio < 5/10 then
    some ⟨"CALL", strike, "BULLISH REVERSAL", oiRatio,
          (if 0 < oiRatio then min 85 (60 + (1/oiRatio - 2) * 12) else 85),
          "STRONG"⟩
  else none

/-- The per-strike loop of `process_options_data`: drop zero-total-OI
strikes, build the record with the `oi_ratio` zero-sentinel, keep records
and emit band signals only inside the ATM window (`6 * 50` points).  The
per-strike `try/except` never fires in this model since no dictionary key
access or arithmetic in the loop can raise. -/
def processLoop (spotPrice : ℚ) : List RawStrike → List Strike × List BSignal
  | [] => ([], [])
  | rs :: rest =>
    let (recsRest, sigsRest) := processLoop spotPrice rest
    if rs.ceOi + rs.peOi = 0 then (recsRest, sigsRest)
    else
      let oiRatio := if 0 < rs.ceOi then rs.peOi / rs.ceOi else 0
      let record : Strike :=
        ⟨rs.strikePrice, rs.ceOi, rs.peOi, pyRound oiRatio 2,
         rs.ceVol, rs.peVol, spotPrice⟩
      if |rs.strikePrice - spotPrice| ≤ 6 * 50 then
        (record :: recsRest, (botSignalForStrike rs.strikePrice oiRatio).toList ++ sigsRest)
      else (recsRest, sigsRest)

/-- Stable insertion of a record in front of the first strictly greater
strike (models Python's stable `sorted(..., key=lambda x: x['strike'])`). -/
def insertByStrike (s : Strike) : List Strike → List Strike
  | [] => [s]
  | t :: ts => if t.strike < s.strike then t :: insertByStrike s ts else s :: t :: ts

def sortByStrike : List Strike → List Strike
  | [] => []
  | s :: ss => insertByStrike s (sortByStrike ss)

/-- `Bot.StreetSmartTradingEngine.process_options_data` for a snapshot
that does carry `records.data` (the `None` early return for a snapshot
without records is not needed by any claim).  Raises (via
`calculate_market_sentiment`) when the processed records have a zero call
or put total with a nonzero grand total. -/
def processOptionsData (ep : EngineParams) (raw : RawRecords) (symbol : String) :
    Except Unit ProcessedData :=
  let spotPrice := raw.underlyingValue
  let (processed, signals) := processLoop spotPrice raw.data
  let processedSorted := sortByStrike processed
  match calculateMarketSentiment processedSorted spotPrice with
  | .error e => .error e
  | .ok sentiment =>
    let volatility := calculateVolatility processedSorted spotPrice
    let tradingDecision :=
      generateTradingDecision ep signals sentiment volatility spotPrice
    .ok ⟨symbol, processedSorted.take 20, signals, sentiment, volatility,
         tradingDecision, spotPrice⟩

/-- Strategy parameters loaded in `OIReversalStrategy.__init__` from the
parameter table (defaults seeded by `_initialize_database`);
`atm_strikes_limit` passes through `int(...)`. -/
structure StrategyParams where
  oiRatioThreshold : ℚ
  profitTargetPct : ℚ
  maxRiskPerTrade : ℚ
  atmStrikesLimit : ℤ
  minConfidence : ℚ
  oiNormalizationThreshold : ℚ
deriving DecidableEq, Repr

def defaultStrategyParams : StrategyParams := ⟨2, 15, 2, 6, 70, 3/2⟩

/-- A signal dictionary built by `detect_extreme_oi_concentration`; the
`symbol` key is added later by `run_strategy_cycle`, hence the `Option`. -/
structure StratSignal where
  type : String
  strike : ℚ
  entryTrigger : String
  confidence : ℚ
  oiRatio : ℚ
  callOi : ℚ
  putOi : ℚ
  spotPrice : ℚ
  signalStrength : String
  expectedWinRate : ℚ
  symbol : Option String
deriving DecidableEq, Repr

/-- `OIReversalStrategy._classify_signal_strength`. -/
def classifySignalStrength (oiRatio : ℚ) : String :=
  if oiRatio ≤ 3/10 then "VERY_STRONG"
  else if oiRatio ≤ 4/10 then "STRONG"
  else if oiRatio ≤ 5/10 then "MODERATE"
  else "WEAK"

/-- `OIReversalStrategy._calculate_signal_confidence`.  The extremity
branch for `oi_ratio < 0.5` computes `1 / oi_ratio` with no guard: a zero
ratio (a strike with `put_oi == 0`) raises ZeroDivisionError, modelled as
`.error ()`.  The divisions by `atm_strikes_limit * 50` and by
`oi_ratio_threshold` would likewise raise when those parameters are zero. -/
def calculateSignalConfidence (p : StrategyParams) (s : Strike)
    (spotPrice oiRatio : ℚ) : Except Unit ℚ :=
  if (p.atmStrikesLimit : ℚ) * 50 = 0 then .error ()
  else
    let distanceFromSpot := |s.strike - spotPrice|
    let atmFactor := max 0 (1 - distanceFromSpot / ((p.atmStrikesLimit : ℚ) * 50))
    let extremityE : Except Unit ℚ :=
      if oiRatio < 5/10 then
        if oiRatio = 0 then .error ()
        else if p.oiRatioThreshold = 0 then .error ()
        else .ok (min 1 ((1/oiRatio) / p.oiRatioThreshold))
      else
        if p.oiRatioThreshold = 0 then .error ()
        else .ok (min 1 (oiRatio / p.oiRatioThreshold))
    match extremityE with
    | .error e => .error e
    | .ok extremityFactor =>
      let totalVolume := s.callVolume + s.putVolume
      let volumeFactor := min 1 (totalVolume / 10000)
      .ok (min 95 (60 + atmFactor * 20 + extremityFactor * 20 + volumeFactor * 10))

/-- Body of the per-strike loop of `detect_extreme_oi_concentration`:
skip `call_oi == 0`, then emit the PUT / CALL signal when the ratio
crosses `1/threshold` / `threshold` and the confidence passes
`min_confidence`. -/
def signalForStrike (p : StrategyParams) (spotPrice : ℚ) (s : Strike) :
    Except Unit (Option StratSignal) :=
  if s.callOi = 0 then .ok none
  else
    let oiRatio := s.putOi / s.callOi
    if oiRatio < 1 / p.oiRatioThreshold then
      match calculateSignalConfidence p s spotPrice oiRatio with
      | .error e => .error e
      | .ok confidence =>
        if p.minConfidence ≤ confidence then
          .ok (some ⟨"PUT", s.strike, "OI_RATIO_2X", confidence, oiRatio,
                     s.callOi, s.putOi, spotPrice,
                     classifySignalStrength oiRatio, 88, none⟩)
        else .ok none
    else if p.oiRatioThreshold < oiRatio then
      match calculateSignalConfidence p s spotPrice oiRatio with
      | .error e => .error e
      | .ok confidence =>
        if p.minConfidence ≤ confidence then
          .ok (some ⟨"CALL", s.strike, "OI_RATIO_2X", confidence, oiRatio,
                     s.callOi, s.putOi, spotPrice,
                     classifySignalStrength (1/oiRatio), 88, none⟩)
        else .ok none
    else .ok none

/-- The strike loop of `detect_extreme_oi_concentration`, appending each
emitted signal in list order and propagating the first exception. -/
def collectSignals (p : StrategyParams) (spotPrice : ℚ) :
    List Strike → Except Unit (List StratSignal)
  | [] => .ok []
  | s :: rest =>
    match signalForStrike p spotPrice s with
    | .error e => .error e
    | .ok here =>
      match collectSignals p spotPrice rest with
      | .error e => .error e
      | .ok there => .ok (here.toList ++ there)

/-- `OIReversalStrategy.detect_extreme_oi_concentration`: restrict to the
ATM window (`atm_strikes_limit` strikes of 50 points) then run the
detection loop. -/
def detectExtremeOIConcentration (p : StrategyParams)
    (strikesData : List Strike) (spotPrice : ℚ) :
    Except Unit (List StratSignal) :=
  collectSignals p spotPrice
    (strikesData.filter
      (fun s => |s.strike - spotPrice| ≤ (p.atmStrikesLimit : ℚ) * 50))

/-- Exit reasons of `should_exit_position`; the source renders them as
f-strings, modelled structurally (the claims only inspect which reason
fired). -/
inductive ExitReason where
  | noMarketData : ExitReason
  | profitTarget : ℚ → ExitReason
  | oiNormalized : ℚ → ExitReason
  | stopLossHit : ℚ → ExitReason
  | hold : ExitReason
deriving DecidableEq, Repr

/-- A row of the `trading_signals` table. -/
structure DBSignal where
  id : ℕ
  symbol : String
  signalType : String
  strikePrice : ℚ
  entryTrigger : String
  confidence : ℚ
  oiRatio : ℚ
  marketSentiment : String
  volatilityRegime : String
  status : String
deriving DecidableEq, Repr

/-- A row of the `positions` table. -/
structure DBPosition where
  id : ℕ
  signalId : ℕ
  symbol : String
  positionType : String
  entryPrice : ℚ
  quantity : ℤ
  stopLoss : Option ℚ
  targetPrice : Option ℚ
  exitPrice : Option ℚ
  exitReason : Option ExitReason
  pnl : ℚ
  status : String
deriving DecidableEq, Repr

/-- A row of the `market_data` table (the per-strike `strike_data` child
rows are write-only for every operation the claims touch and are not
modelled). -/
structure MarketRow where
  symbol : String
  spotPrice : ℚ
  totalCallOi : ℚ
  totalPutOi : ℚ
  putCallRatio : ℚ
  sentimentScore : ℚ
  volatilityIv : ℚ
deriving DecidableEq, Repr

/-- The SQLite database contents relevant to the claims, with the
autoincrement counters. -/
structure DBState where
  marketRows : List MarketRow
  dbSignals : List DBSignal
  dbPositions : List DBPosition
  nextSignalId : ℕ
  nextPositionId : ℕ
deriving DecidableEq, Repr

def emptyDB : DBState := ⟨[], [], [], 1, 1⟩

/-- The joined row returned by `TradingDatabase.get_open_positions`
(`positions` INNER JOIN `trading_signals`, adding `signal_type`,
`strike_price`, `confidence` from the signal). -/
structure PositionView where
  id : ℕ
  symbol : String
  positionType : String
  entryPrice : ℚ
  quantity : ℤ
  stopLoss : Option ℚ
  targetPrice : Option ℚ
  signalType : String
  strikePrice : ℚ
  confidence : ℚ
deriving DecidableEq, Repr

/-- The market-data dictionary passed to `run_strategy_cycle`,
`execute_signal` and `should_exit_position`.  Note the two distinct
strike-list keys: the snapshot produced by `process_options_data` carries
its records under `data`, while `should_exit_position` reads
`strikes_data`. -/
structure MarketData where
  symbol : Option String
  data : Option (List Strike)
  strikesData : Option (List Strike)
  spotPrice : Option ℚ
  sentiment : Option SentimentResult
  volatility : Option VolatilityResult
deriving DecidableEq, Repr

/-- Results dictionary of `run_strategy_cycle`. -/
structure CycleResults where
  signalsDetected : ℕ
  positionsOpened : ℕ
  positionsClosed : ℕ
  totalPnl : ℚ
deriving DecidableEq, Repr

/-- `TradingDatabase.save_market_data` (the guarded
`put_call_ratio` computation and the aggregate row; child strike rows are
not read back by any modelled operation). -/
def saveMarketData (st : DBState) (symbol : String) (spotPrice : ℚ)
    (strikesData : List Strike) (sentiment : Option SentimentResult)
    (volatility : Option VolatilityResult) : DBState :=
  let totalCallOi := (strikesData.map (·.callOi)).sum
  let totalPutOi := (strikesData.map (·.putOi)).sum
  let putCallRatio := if 0 < totalCallOi then totalPutOi / totalCallOi else 0
  let score := match sentiment with | some s => s.score | none => 50
  let iv := match volatility with | some v => v.iv | none => 0
  { st with marketRows := st.marketRows ++
      [⟨symbol, spotPrice, totalCallOi, totalPutOi, putCallRatio, score, iv⟩] }

/-- `TradingDatabase.save_trading_signal`: insert with status `ACTIVE`
and return the new row id. -/
def saveTradingSignal (st : DBState) (symbol signalType : String)
    (strikePrice : ℚ) (entryTrigger : String) (confidence oiRatio : ℚ)
    (marketSentiment volatilityRegime : String) : DBState × ℕ :=
  let sid := st.nextSignalId
  ({ st with
      dbSignals := st.dbSignals ++
        [⟨sid, symbol, signalType, strikePrice, entryTrigger, confidence,
          oiRatio, marketSentiment, volatilityRegime, "ACTIVE"⟩],
      nextSignalId := sid + 1 }, sid)

/-- `TradingDatabase.open_position`: insert an OPEN position and flip the
signal's status to EXECUTED. -/
def openPosition (st : DBState) (signalId : ℕ) (symbol positionType : String)
    (entryPrice : ℚ) (quantity : ℤ) (stopLoss targetPrice : Option ℚ) :
    DBState × ℕ :=
  let pid := st.nextPositionId
  ({ st with
      dbPositions := st.dbPositions ++
        [⟨pid, signalId, symbol, positionType, entryPrice, quantity,
          stopLoss, targetPrice, none, none, 0, "OPEN"⟩],
      dbSignals := st.dbSignals.map
        (fun s => if s.id = signalId then { s with status := "EXECUTED" } else s),
      nextPositionId := pid + 1 }, pid)

/-- `TradingDatabase.close_position`.  When the position id is not found
the source returns False.  When it is found, the very next use of
`position_type` (line `if 'CALL' in position_type.upper() ...`) reads a
name that is never assigned in the function (it is neither a parameter
nor selected from the table), so Python raises NameError before any
update runs: modelled as `.error ()`. -/
def closePosition (st : DBState) (positionId : ℕ)
    (_exitPrice : ℚ) (_exitReason : ExitReason) :
    Except Unit (DBState × Bool) :=
  match st.dbPositions.find? (fun p => p.id = positionId) with
  | none => .ok (st, false)
  | some _ => .error ()

/-- `TradingDatabase.get_open_positions`: OPEN positions joined with
their signal, ordered by `entry_time DESC` — with the single-cycle clock
not modelled, newest-first is reverse insertion order. -/
def getOpenPositions (st : DBState) : List PositionView :=
  ((st.dbPositions.filter (fun p => p.status = "OPEN")).reverse).filterMap
    (fun p => (st.dbSignals.find? (fun s => s.id = p.signalId)).map
      (fun s => ⟨p.id, p.symbol, p.positionType, p.entryPrice, p.quantity,
                 p.stopLoss, p.targetPrice, s.signalType, s.strikePrice,
                 s.confidence⟩))

/-- Performance aggregate of `TradingDatabase.get_performance_metrics`
restricted to the fields the claims read (`total_trades`, `total_pnl`);
the trailing-days window needs a wall clock and is not modelled, nor are
the win/loss breakdown fields no claim touches. -/
structure PerfMetrics where
  totalTrades : ℕ
  totalPnl : ℚ
deriving DecidableEq, Repr

def getPerformanceMetrics (st : DBState) : PerfMetrics :=
  let closed := st.dbPositions.filter (fun p => p.status = "CLOSED")
  if closed = [] then ⟨0, 0⟩
  else ⟨closed.length, pyRound ((closed.map (·.pnl)).sum) 2⟩

/-- Python `str.upper()` on the ASCII position-type tags (structural map
over the character list, so it evaluates by kernel reduction). -/
def strUpper (s : String) : String := ⟨s.data.map Char.toUpper⟩

/-- `OIReversalStrategy._calculate_current_pnl_pct`; dividing by a zero
`entry_price` raises ZeroDivisionError. -/
def calculateCurrentPnlPct (pos : PositionView) (currentSpot : ℚ) :
    Except Unit ℚ :=
  if pos.entryPrice = 0 then .error ()
  else if strUpper pos.positionType = "LONG_CALL" ∨
          strUpper pos.positionType = "SHORT_PUT" then
    .ok ((currentSpot - pos.entryPrice) / pos.entryPrice * 100)
  else
    .ok ((pos.entryPrice - currentSpot) / pos.entryPrice * 100)

/-- `OIReversalStrategy.should_exit_position`: profit target first, then
OI normalization against `current_market_data['strikes_data']`, then stop
loss (a `None` or zero stored stop is falsy and skips the check). -/
def shouldExitPosition (p : StrategyParams) (pos : PositionView)
    (md : MarketData) : Except Unit (Bool × ExitReason) :=
  let currentSpot := md.spotPrice.getD 0
  if currentSpot = 0 then .ok (false, .noMarketData)
  else
    match calculateCurrentPnlPct pos currentSpot with
    | .error e => .error e
    | .ok currentPnlPct =>
      if p.profitTargetPct ≤ currentPnlPct then
        .ok (true, .profitTarget currentPnlPct)
      else
        let strikesData := md.strikesData.getD []
        let oiExit : Option ExitReason :=
          match strikesData.find? (fun s => s.strike = pos.strikePrice) with
          | none => none
          | some strikeData =>
            if 0 < strikeData.callOi then
              let currentOiRatio := strikeData.putOi / strikeData.callOi
              if strUpper pos.positionType = "SHORT_CALL" ∨
                 strUpper pos.positionType = "LONG_PUT" then
                if p.oiNormalizationThreshold ≤ currentOiRatio then
                  some (.oiNormalized currentOiRatio)
                else none
              else if strUpper pos.positionType = "LONG_CALL" ∨
                      strUpper pos.positionType = "SHORT_PUT" then
                if currentOiRatio ≤ 1 / p.oiNormalizationThreshold then
                  some (.oiNormalized currentOiRatio)
                else none
              else none
            else none
        match oiExit with
        | some reason => .ok (true, reason)
        | none =>
          let stopLoss := pos.stopLoss.getD 0
          if stopLoss ≠ 0 then
            if strUpper pos.positionType = "LONG_CALL" ∨
               strUpper pos.positionType = "SHORT_PUT" then
              if currentSpot ≤ stopLoss then .ok (true, .stopLossHit currentSpot)
              else .ok (false, .hold)
            else
              if stopLoss ≤ currentSpot then .ok (true, .stopLossHit currentSpot)
              else .ok (false, .hold)
          else .ok (false, .hold)

/-- `OIReversalStrategy.calculate_position_size`: risk 2% of capital, 3%
stop / 15% target bands by direction, quantity truncated and floored at 1. -/
def calculatePositionSize (p : StrategyParams) (capital : ℚ)
    (sig : StratSignal) (spotPrice : ℚ) : ℤ × ℚ × ℚ :=
  let riskAmount := capital * (p.maxRiskPerTrade / 100)
  if sig.type = "CALL" then
    (max 1 (pyInt (riskAmount / (spotPrice * (3/100)))),
     spotPrice * (97/100), spotPrice * (115/100))
  else
    (max 1 (pyInt (riskAmount / (spotPrice * (3/100)))),
     spotPrice * (103/100), spotPrice * (85/100))

/-- `OIReversalStrategy.execute_signal`: bail out with `None` when the
spot price is falsy, otherwise persist the signal, size the position and
open a LONG_CALL / LONG_PUT at the spot-price proxy.  Its `try/except`
surfaces any internal failure as `None`; no modelled database operation
fails here. -/
def executeSignal (p : StrategyParams) (capital : ℚ) (st : DBState)
    (sig : StratSignal) (md : MarketData) : DBState × Option ℕ :=
  let symbol := sig.symbol.getD "UNKNOWN"
  let spotPrice := md.spotPrice.getD 0
  if spotPrice = 0 then (st, none)
  else
    let sentimentLabel := match md.sentiment with
      | some s => s.sentiment
      | none => "NEUTRAL"
    let volatilityLabel := match md.volatility with
      | some v => v.volatilityRegime
      | none => "MEDIUM"
    let (st1, signalId) := saveTradingSignal st symbol sig.type sig.strike
      sig.entryTrigger sig.confidence sig.oiRatio sentimentLabel volatilityLabel
    let (quantity, stopLoss, targetPrice) := calculatePositionSize p capital sig spotPrice
    let positionType := if sig.type = "CALL" then "LONG_CALL" else "LONG_PUT"
    let (st2, positionId) := openPosition st1 signalId symbol positionType
      spotPrice quantity (some stopLoss) (some targetPrice)
    (st2, some positionId)

/-- The loop of `monitor_and_exit_positions` over a pre-fetched position
list.  A raised exception (from `should_exit_position` or
`close_position`) propagates out of the loop: the Bool result is `false`
when the loop aborted with an exception, `true` when it ran to
completion.  A `False` return from `close_position` is only logged and
the loop continues. -/
def monitorLoop (p : StrategyParams) (md : MarketData) (st : DBState) :
    List PositionView → DBState × Bool
  | [] => (st, true)
  | pos :: rest =>
    match shouldExitPosition p pos md with
    | .error _ => (st, false)
    | .ok (false, _) => monitorLoop p md st rest
    | .ok (true, reason) =>
      let exitPrice := md.spotPrice.getD pos.entryPrice
      match closePosition st pos.id exitPrice reason with
      | .error _ => (st, false)
      | .ok (st1, _success) => monitorLoop p md st1 rest

/-- `OIReversalStrategy.monitor_and_exit_positions`. -/
def monitorAndExitPositions (p : StrategyParams) (st : DBState)
    (md : MarketData) : DBState × Bool :=
  monitorLoop p md st (getOpenPositions st)

/-- The signal-execution loop of `run_strategy_cycle`: set the signal's
`symbol`, execute it, and count truthy position ids. -/
def executeAll (p : StrategyParams) (capital : ℚ) (symbol : String)
    (md : MarketData) (st : DBState) : List StratSignal → DBState × ℕ
  | [] => (st, 0)
  | sig :: rest =>
    let (st1, positionId) := executeSignal p capital st { sig with symbol := some symbol } md
    let (st2, opened) := executeAll p capital symbol md st1 rest
    (st2, (if positionId.getD 0 ≠ 0 then 1 else 0) + opened)

/-- `OIReversalStrategy.run_strategy_cycle`.  The whole body runs inside
`try/except Exception`, so an exception raised at any point (detection, or
exit evaluation) is caught and the `results` dictionary as mutated so far
is returned; the guard `if strikes_data and spot_price` skips the body
entirely on a missing/empty strike list or falsy spot price. -/
def runStrategyCycle (p : StrategyParams) (capital : ℚ) (st : DBState)
    (md : MarketData) : DBState × CycleResults :=
  let strikesData := md.data.getD []
  let spotPrice := md.spotPrice.getD 0
  if strikesData = [] ∨ spotPrice = 0 then (st, ⟨0, 0, 0, 0⟩)
  else
    let symbol := md.symbol.getD "UNKNOWN"
    let st1 := saveMarketData st symbol spotPrice strikesData md.sentiment md.volatility
    match detectExtremeOIConcentration p strikesData spotPrice with
    | .error _ => (st1, ⟨0, 0, 0, 0⟩)
    | .ok signals =>
      let (st2, opened) := executeAll p capital symbol md st1 signals
      match monitorAndExitPositions p st2 md with
      | (st3, false) => (st3, ⟨signals.length, opened, 0, 0⟩)
      | (st3, true) =>
        (st3, ⟨signals.length, opened, 0, (getPerformanceMetrics st3).totalPnl⟩)

/-! Concrete fixtures used to evaluate the embedded functions at
specific inputs. -/

/-- An ATM strike with extreme call concentration (ratio `1/10`). -/
def strikeSignalSrc : Strike := ⟨100, 100, 10, 1/10, 0, 0, 100⟩

/-- The signal `detect_extreme_oi_concentration` emits for
`strikeSignalSrc` at spot 100. -/
def sigPut95 : StratSignal :=
  ⟨"PUT", 100, "OI_RATIO_2X", 95, 1/10, 100, 10, 100, "VERY_STRONG", 88, none⟩

/-- An ATM strike with positive call OI and zero put OI. -/
def strikeZeroPutA : Strike := ⟨100, 4, 0, 0, 0, 0, 0⟩

/-- Another ATM strike with positive call OI and zero put OI. -/
def strikeZeroPutB : Strike := ⟨100, 1, 0, 0, 0, 0, 0⟩

/-- An ATM strike with ratio `1/4` and nonzero put OI. -/
def strikeRatioQuarter : Strike := ⟨100, 4, 1, 0, 0, 0, 0⟩

/-- A balanced strike (ratio 1). -/
def strikeBalanced : Strike := ⟨100, 10, 10, 0, 0, 0, 0⟩

/-- A strike with zero call OI but positive put OI. -/
def strikeCallZero : Strike := ⟨100, 0, 5, 0, 0, 0, 0⟩

/-- A raw snapshot whose only strike has zero total OI. -/
def rawZeroOi : RawRecords := ⟨100, [⟨100, 0, 0, 0, 0⟩]⟩

/-- A strong CALL signal with confidence 90 (best-signal pipeline). -/
def bullCallSig : BSignal := ⟨"CALL", 100, "STRONG BULLISH REVERSAL", 3/10, 90, "VERY_STRONG"⟩

/-- A bullish sentiment read. -/
def bullishSentiment : SentimentResult := ⟨"BULLISH", 40, 50, some (3/10)⟩

/-- A medium-volatility read. -/
def mediumVolatility : VolatilityResult := ⟨12, "MEDIUM", some (1/2)⟩

/-- Two executed signals backing two open positions. -/
def dbSigPair1 : DBSignal :=
  ⟨1, "NIFTY", "PUT", 24900, "OI_RATIO_2X", 95, 1/10, "NEUTRAL", "MEDIUM", "EXECUTED"⟩

def dbSigPair2 : DBSignal :=
  ⟨2, "NIFTY", "PUT", 24900, "OI_RATIO_2X", 95, 1/10, "NEUTRAL", "MEDIUM", "EXECUTED"⟩

/-- Two open LONG_CALL positions entered at 50, both past the 15% profit
target when the spot is 100. -/
def posPair1 : DBPosition :=
  ⟨1, 1, "NIFTY", "LONG_CALL", 50, 1, none, none, none, none, 0, "OPEN"⟩

def posPair2 : DBPosition :=
  ⟨2, 2, "NIFTY", "LONG_CALL", 50, 1, none, none, none, none, 0, "OPEN"⟩

def stPair : DBState := ⟨[], [dbSigPair1, dbSigPair2], [posPair1, posPair2], 3, 3⟩

/-- A market dictionary carrying only a spot price. -/
def mdSpotOnly : MarketData := ⟨some "NIFTY", none, none, some 100, none, none⟩

/-- A signal backing an open LONG_PUT position at strike 100. -/
def dbSigNorm : DBSignal :=
  ⟨1, "NIFTY", "PUT", 100, "OI_RATIO_2X", 95, 1/10, "NEUTRAL", "MEDIUM", "EXECUTED"⟩

/-- An open LONG_PUT at strike 100, entered at 100, no profit yet. -/
def posNorm : DBPosition :=
  ⟨1, 1, "NIFTY", "LONG_PUT", 100, 1, none, none, none, none, 0, "OPEN"⟩

def stNorm : DBState := ⟨[], [dbSigNorm], [posNorm], 2, 2⟩

/-- The snapshot record at the position's strike with ratio `16/10 ≥ 3/2`:
the OI-normalization condition of the spec holds at this strike. -/
def strikeNormed : Strike := ⟨100, 10, 16, 8/5, 0, 0, 100⟩

/-- A cycle snapshot as produced by `process_options_data`: the strike
records are under the `data` key and there is no `strikes_data` key. -/
def mdNormCycle : MarketData := ⟨some "NIFTY", some [strikeNormed], none, some 100, none, none⟩

/-- A strike with ratio exactly 2 (no entry signal, but above the 3/2
normalization threshold), sharing its strike value with
`strikeSignalSrc`. -/
def strikeDup : Strike := ⟨100, 10, 20, 2, 0, 0, 100⟩

def listDup : List Strike := [strikeDup, strikeSignalSrc]

/-- The snapshot that produced the signal, offered to the exit evaluator
under its `strikes_data` key. -/
def mdDup : MarketData := ⟨some "NIFTY", none, some listDup, some 100, none, none⟩

/-- The no-duplicate variant of `mdDup`. -/
def mdSingleSrc : MarketData :=
  ⟨some "NIFTY", none, some [strikeSignalSrc], some 100, none, none⟩

/-- A stale open LONG_CALL (entered at 50) whose profit-target exit will
be attempted — and fault — during a cycle at spot 100. -/
def dbSigStale : DBSignal :=
  ⟨1, "NIFTY", "PUT", 100, "OI_RATIO_2X", 95, 1/10, "NEUTRAL", "MEDIUM", "EXECUTED"⟩

def posStale : DBPosition :=
  ⟨1, 1, "NIFTY", "LONG_CALL", 50, 1, none, none, none, none, 0, "OPEN"⟩

def stStale : DBState := ⟨[], [dbSigStale], [posStale], 2, 2⟩

/-- A cycle snapshot that detects one signal and opens one position
before exit evaluation faults. -/
def mdStale : MarketData := ⟨some "NIFTY", some [strikeSignalSrc], none, some 100, none, none⟩

/-- A snapshot with no strike data. -/
def mdNoData : MarketData := ⟨none, none, none, some 100, none, none⟩

/-- Number of CLOSED positions in the store. -/
def closedCount (st : DBState) : ℕ :=
  (st.dbPositions.filter (fun p => p.status = "CLOSED")).length

/-! Helper lemmas. -/

theorem ratFloor_eq_floor (q : ℚ) : q.floor = ⌊q⌋ := by
  rw [Rat.floor_def', Rat.floor_def]

theorem pyRound_bounds (x : ℚ) (d : ℕ) (h0 : 0 ≤ x) (h100 : x ≤ 100) :
    0 ≤ pyRound x d ∧ pyRound x d ≤ 100 := by
  unfold pyRound
  dsimp only
  have hs : (0:ℚ) < ((10^d : ℕ) : ℚ) := by
    exact_mod_cast pow_pos (by norm_num : (0:ℕ) < 10) d
  set y := x * ((10^d : ℕ) : ℚ) with hy
  have hy0 : 0 ≤ y := mul_nonneg h0 hs.le
  have hy100 : y ≤ 100 * ((10^d : ℕ) : ℚ) := mul_le_mul_of_nonneg_right h100 hs.le
  have hfl : y.floor = ⌊y⌋ := ratFloor_eq_floor y
  have hf0 : (0:ℤ) ≤ y.floor := by rw [hfl]; exact Int.floor_nonneg.2 hy0
  have hfle : (y.floor : ℚ) ≤ y := by rw [hfl]; exact Int.floor_le y
  have hNcast : (100 : ℚ) * ((10^d : ℕ) : ℚ) = (((100 * 10^d : ℕ) : ℤ) : ℚ) := by
    push_cast; ring
  have hfN : y.floor ≤ ((100 * 10^d : ℕ) : ℤ) := by
    rw [hfl]
    have := Int.floor_le_floor (α := ℚ) hy100
    rwa [hNcast, Int.floor_intCast] at this
  have hbound : ∀ n : ℤ, 0 ≤ n → n ≤ ((100 * 10^d : ℕ) : ℤ) →
      0 ≤ (n : ℚ) / ((10^d : ℕ) : ℚ) ∧ (n : ℚ) / ((10^d : ℕ) : ℚ) ≤ 100 := by
    intro n hn hnN
    constructor
    · exact div_nonneg (by exact_mod_cast hn) hs.le
    · rw [div_le_iff₀ hs]
      calc (n : ℚ) ≤ (((100 * 10^d : ℕ) : ℤ) : ℚ) := by exact_mod_cast hnN
        _ = 100 * ((10^d : ℕ) : ℚ) := hNcast.symm
  have hsucc : ¬(y - (y.floor : ℚ) < 1/2) → y.floor + 1 ≤ ((100 * 10^d : ℕ) : ℤ) := by
    intro hr
    rcases lt_or_eq_of_le hfN with h | h
    · omega
    · exfalso
      have hfq : (y.floor : ℚ) = 100 * ((10^d : ℕ) : ℚ) := by
        rw [h, hNcast]
      have hyf : y ≤ (y.floor : ℚ) := by rw [hfq]; exact hy100
      exact hr (by linarith)
  split_ifs with h1 h2 h3
  · exact hbound _ hf0 hfN
  · exact hbound _ (by omega) (hsucc h1)
  · exact hbound _ hf0 hfN
  · exact hbound _ (by omega) (hsucc h1)

theorem strUpper_LONG_PUT : strUpper "LONG_PUT" = "LONG_PUT" := by decide

theorem strUpper_LONG_CALL : strUpper "LONG_CALL" = "LONG_CALL" := by decide

theorem collectSignals_mem_iff (p : StrategyParams) (sp : ℚ) :
    ∀ (L : List Strike) (out : List StratSignal),
      collectSignals p sp L = .ok out →
      ∀ g, (g ∈ out ↔ ∃ s ∈ L, signalForStrike p sp s = .ok (some g))
  | [], out, h, g => by
    simp only [collectSignals] at h
    injection h with h
    subst h
    simp
  | s :: rest, out, h, g => by
    simp only [collectSignals] at h
    rcases hh : signalForStrike p sp s with e | here <;> rw [hh] at h
    · cases h
    · rcases ht : collectSignals p sp rest with e | there <;> rw [ht] at h
      · cases h
      · injection h with h
        subst h
        have ih := collectSignals_mem_iff p sp rest there ht g
        constructor
        · intro hg
          rcases List.mem_append.1 hg with hg | hg
          · cases here with
            | none => simp at hg
            | some x =>
              simp only [Option.toList_some, List.mem_singleton] at hg
              subst hg
              exact ⟨s, List.mem_cons_self s rest, hh⟩
          · rcases ih.1 hg with ⟨t, ht', hsig⟩
            exact ⟨t, List.mem_cons_of_mem s ht', hsig⟩
        · rintro ⟨t, htmem, hsig⟩
          rcases List.mem_cons.1 htmem with rfl | htmem
          · rw [hh] at hsig
            injection hsig with hsig
            subst hsig
            exact List.mem_append.2 (Or.inl (by simp))
          · exact List.mem_append.2 (Or.inr (ih.2 ⟨t, htmem, hsig⟩))

theorem collectSignals_total (p : StrategyParams) (sp : ℚ) :
    ∀ (L : List Strike), (∀ s ∈ L, ∃ o, signalForStrike p sp s = .ok o) →
      ∃ out, collectSignals p sp L = .ok out
  | [], _ => ⟨[], rfl⟩
  | s :: rest, h => by
    rcases h s (List.mem_cons_self s rest) with ⟨o, ho⟩
    rcases collectSignals_total p sp rest
      (fun t ht => h t (List.mem_cons_of_mem s ht)) with ⟨out, hout⟩
    exact ⟨o.toList ++ out, by simp only [collectSignals]; rw [ho, hout]⟩

theorem signalForStrike_default_inv (sp : ℚ) (s : Strike) (g : StratSignal)
    (h : signalForStrike defaultStrategyParams sp s = .ok (some g)) :
    s.callOi ≠ 0 ∧ g.strike = s.strike ∧
      ((g.type = "PUT" ∧ s.putOi / s.callOi < 1/2) ∨
       (g.type = "CALL" ∧ 2 < s.putOi / s.callOi)) := by
  have hth : (1 : ℚ) / defaultStrategyParams.oiRatioThreshold = 1/2 := by
    norm_num [defaultStrategyParams]
  have hth2 : defaultStrategyParams.oiRatioThreshold = (2:ℚ) := by
    norm_num [defaultStrategyParams]
  unfold signalForStrike at h
  by_cases hc : s.callOi = 0
  · rw [if_pos hc] at h
    cases h
  · rw [if_neg hc] at h
    dsimp only at h
    by_cases hlt : s.putOi / s.callOi < 1 / defaultStrategyParams.oiRatioThreshold
    · rw [if_pos hlt] at h
      rcases hconf : calculateSignalConfidence defaultStrategyParams s sp
          (s.putOi / s.callOi) with e | c <;> rw [hconf] at h <;> dsimp only at h
      · cases h
      · split_ifs at h
        · injection h with h
          injection h with h
          subst h
          exact ⟨hc, rfl, Or.inl ⟨rfl, by rwa [hth] at hlt⟩⟩
        · simp at h
    · rw [if_neg hlt] at h
      by_cases hgt : defaultStrategyParams.oiRatioThreshold < s.putOi / s.callOi
      · rw [if_pos hgt] at h
        rcases hconf : calculateSignalConfidence defaultStrategyParams s sp
            (s.putOi / s.callOi) with e | c <;> rw [hconf] at h <;> dsimp only at h
        · cases h
        · split_ifs at h
          · injection h with h
            injection h with h
            subst h
            exact ⟨hc, rfl, Or.inr ⟨rfl, by rwa [hth2] at hgt⟩⟩
          · simp at h
      · rw [if_neg hgt] at h
        cases h

theorem calcConf_default_ok_ge80 (sp : ℚ) (s : Strike) (r : ℚ)
    (hcv : 0 ≤ s.callVolume) (hpv : 0 ≤ s.putVolume)
    (hext : (0 < r ∧ r < 1/2) ∨ 2 < r) :
    ∃ c, calculateSignalConfidence defaultStrategyParams s sp r = .ok c ∧ 80 ≤ c := by
  unfold calculateSignalConfidence
  have hden : ((defaultStrategyParams.atmStrikesLimit : ℚ) * 50) = 300 := by
    norm_num [defaultStrategyParams]
  rw [hden]
  rw [if_neg (by norm_num : ¬(300:ℚ) = 0)]
  dsimp only
  have hthne : ¬defaultStrategyParams.oiRatioThreshold = (0:ℚ) := by
    norm_num [defaultStrategyParams]
  have hth2 : defaultStrategyParams.oiRatioThreshold = (2:ℚ) := by
    norm_num [defaultStrategyParams]
  have hatm0 : 0 ≤ max 0 (1 - |s.strike - sp| / 300) := le_max_left 0 _
  have hvol0 : 0 ≤ min 1 ((s.callVolume + s.putVolume) / 10000) :=
    le_min (by norm_num) (div_nonneg (by linarith) (by norm_num))
  rcases hext with ⟨hr0, hrlt⟩ | hrgt
  · have hrlt5 : r < 5/10 := by linarith
    rw [if_pos hrlt5, if_neg (ne_of_gt hr0), if_neg hthne]
    dsimp only
    have hext1 : min 1 (1/r / defaultStrategyParams.oiRatioThreshold) = 1 := by
      rw [hth2]
      refine min_eq_left ?_
      have h2r : 2 < 1/r := by
        rw [lt_div_iff₀ hr0]
        linarith
      linarith
    rw [hext1]
    refine ⟨_, rfl, ?_⟩
    refine le_min (by norm_num) ?_
    linarith
  · have hrge5 : ¬(r < 5/10) := by push_neg; linarith
    rw [if_neg hrge5, if_neg hthne]
    dsimp only
    have hext1 : min 1 (r / defaultStrategyParams.oiRatioThreshold) = 1 := by
      rw [hth2]
      refine min_eq_left ?_
      rw [le_div_iff₀ (by norm_num : (0:ℚ) < 2)]
      linarith
    rw [hext1]
    refine ⟨_, rfl, ?_⟩
    refine le_min (by norm_num) ?_
    linarith

theorem calcConf_default_ok (sp : ℚ) (s : Strike) (r : ℚ) (hr : r ≠ 0) :
    ∃ c, calculateSignalConfidence defaultStrategyParams s sp r = .ok c := by
  unfold calculateSignalConfidence
  have hden : ((defaultStrategyParams.atmStrikesLimit : ℚ) * 50) = 300 := by
    norm_num [defaultStrategyParams]
  rw [hden, if_neg (by norm_num : ¬(300:ℚ) = 0)]
  dsimp only
  have hthne : ¬defaultStrategyParams.oiRatioThreshold = (0:ℚ) := by
    norm_num [defaultStrategyParams]
  by_cases h5 : r < 5/10
  · rw [if_pos h5, if_neg hr, if_neg hthne]
    dsimp only
    exact ⟨_, rfl⟩
  · rw [if_neg h5, if_neg hthne]
    dsimp only
    exact ⟨_, rfl⟩

theorem signalForStrike_default_put_emit (sp : ℚ) (s : Strike)
    (hc : 0 < s.callOi) (hp : 0 < s.putOi)
    (hcv : 0 ≤ s.callVolume) (hpv : 0 ≤ s.putVolume)
    (hr : s.putOi / s.callOi < 1/2) :
    ∃ g, signalForStrike defaultStrategyParams sp s = .ok (some g) ∧
      g.type = "PUT" ∧ g.strike = s.strike := by
  have hrpos : 0 < s.putOi / s.callOi := div_pos hp hc
  obtain ⟨c, hcc, h80⟩ := calcConf_default_ok_ge80 sp s _ hcv hpv (Or.inl ⟨hrpos, hr⟩)
  unfold signalForStrike
  rw [if_neg (ne_of_gt hc)]
  dsimp only
  rw [if_pos (by
    rw [show (1:ℚ)/defaultStrategyParams.oiRatioThreshold = 1/2 by
      norm_num [defaultStrategyParams]]
    exact hr)]
  rw [hcc]
  dsimp only
  rw [if_pos (by
    rw [show defaultStrategyParams.minConfidence = (70:ℚ) by
      norm_num [defaultStrategyParams]]
    linarith)]
  exact ⟨_, rfl, rfl, rfl⟩

theorem signalForStrike_default_call_emit (sp : ℚ) (s : Strike)
    (hc : 0 < s.callOi)
    (hcv : 0 ≤ s.callVolume) (hpv : 0 ≤ s.putVolume)
    (hr : 2 < s.putOi / s.callOi) :
    ∃ g, signalForStrike defaultStrategyParams sp s = .ok (some g) ∧
      g.type = "CALL" ∧ g.strike = s.strike := by
  obtain ⟨c, hcc, h80⟩ := calcConf_default_ok_ge80 sp s _ hcv hpv (Or.inr hr)
  unfold signalForStrike
  rw [if_neg (ne_of_gt hc)]
  dsimp only
  rw [if_neg (by
    rw [show (1:ℚ)/defaultStrategyParams.oiRatioThreshold = 1/2 by
      norm_num [defaultStrategyParams]]
    push_neg
    linarith)]
  rw [if_pos (by
    rw [show defaultStrategyParams.oiRatioThreshold = (2:ℚ) by
      norm_num [defaultStrategyParams]]
    exact hr)]
  rw [hcc]
  dsimp only
  rw [if_pos (by
    rw [show defaultStrategyParams.minConfidence = (70:ℚ) by
      norm_num [defaultStrategyParams]]
    linarith)]
  exact ⟨_, rfl, rfl, rfl⟩

theorem signalForStrike_default_none (sp : ℚ) (s : Strike)
    (hc : s.callOi ≠ 0)
    (h1 : ¬(s.putOi / s.callOi < 1/2)) (h2 : ¬(2 < s.putOi / s.callOi)) :
    signalForStrike defaultStrategyParams sp s = .ok none := by
  unfold signalForStrike
  rw [if_neg hc]
  dsimp only
  rw [if_neg (by
    rw [show (1:ℚ)/defaultStrategyParams.oiRatioThreshold = 1/2 by
      norm_num [defaultStrategyParams]]
    exact h1)]
  rw [if_neg (by
    rw [show defaultStrategyParams.oiRatioThreshold = (2:ℚ) by
      norm_num [defaultStrategyParams]]
    exact h2)]

theorem signalForStrike_default_ok (sp : ℚ) (s : Strike)
    (h : s.callOi ≠ 0 → s.putOi ≠ 0) :
    ∃ o, signalForStrike defaultStrategyParams sp s = .ok o := by
  by_cases hc : s.callOi = 0
  · exact ⟨none, by unfold signalForStrike; rw [if_pos hc]⟩
  · obtain ⟨c, hcc⟩ := calcConf_default_ok sp s _ (div_ne_zero (h hc) hc)
    unfold signalForStrike
    rw [if_neg hc]
    dsimp only
    by_cases hlt : s.putOi / s.callOi < 1 / defaultStrategyParams.oiRatioThreshold
    · rw [if_pos hlt, hcc]
      dsimp only
      by_cases hmc : defaultStrategyParams.minConfidence ≤ c
      · rw [if_pos hmc]
        exact ⟨_, rfl⟩
      · rw [if_neg hmc]
        exact ⟨_, rfl⟩
    · rw [if_neg hlt]
      by_cases hgt : defaultStrategyParams.oiRatioThreshold < s.putOi / s.callOi
      · rw [if_pos hgt, hcc]
        dsimp only
        by_cases hmc : defaultStrategyParams.minConfidence ≤ c
        · rw [if_pos hmc]
          exact ⟨_, rfl⟩
        · rw [if_neg hmc]
          exact ⟨_, rfl⟩
      · rw [if_neg hgt]
        exact ⟨_, rfl⟩

theorem find_strike_nodup (L : List Strike)
    (hnd : (L.map (fun t => t.strike)).Nodup) (s : Strike) (hs : s ∈ L) :
    L.find? (fun t => t.strike = s.strike) = some s := by
  induction L with
  | nil => cases hs
  | cons a as ih =>
    by_cases has : a.strike = s.strike
    · have : a = s :=
        List.inj_on_of_nodup_map hnd (List.mem_cons_self a as) hs has
      rw [List.find?_cons_of_pos _ (by simpa using has), this]
    · rw [List.find?_cons_of_neg _ (by simpa using has)]
      have hnd' : (as.map (fun t => t.strike)).Nodup :=
        (List.nodup_cons.1 (by simpa using hnd)).2
      have hsas : s ∈ as := by
        rcases List.mem_cons.1 hs with rfl | h
        · exact absurd rfl has
        · exact h
      exact ih hnd' hsas

/-- C1 (amended): for every strike of the snapshot inside the ATM window
with positive call OI and positive put OI (so that the confidence
computation does not divide by zero), `detect_extreme_oi_concentration`
under the default parameters — given that the call returned a signal list
and the snapshot's strike values are distinct — emits a PUT signal at
that strike iff `put_oi/call_oi < 1/2`, a CALL signal iff the ratio
exceeds 2, and no signal at all when the ratio lies in `[1/2, 2]`; the
`min_confidence` filter never suppresses a crossing strike because its
confidence is at least 80. -/
theorem C1_extreme_detection_iff (L : List Strike) (spotPrice : ℚ)
    (sigs : List StratSignal) (s : Strike)
    (hnd : (L.map (fun t => t.strike)).Nodup)
    (hdet : detectExtremeOIConcentration defaultStrategyParams L spotPrice = .ok sigs)
    (hs : s ∈ L) (hatm : |s.strike - spotPrice| ≤ 300)
    (hc : 0 < s.callOi) (hp : 0 < s.putOi)
    (hcv : 0 ≤ s.callVolume) (hpv : 0 ≤ s.putVolume) :
    ((∃ g ∈ sigs, g.strike = s.strike ∧ g.type = "PUT") ↔ s.putOi / s.callOi < 1/2) ∧
    ((∃ g ∈ sigs, g.strike = s.strike ∧ g.type = "CALL") ↔ 2 < s.putOi / s.callOi) ∧
    (1/2 ≤ s.putOi / s.callOi → s.putOi / s.callOi ≤ 2 →
      ∀ g ∈ sigs, g.strike ≠ s.strike) := by
  have hlim : ((defaultStrategyParams.atmStrikesLimit : ℚ) * 50) = 300 := by
    norm_num [defaultStrategyParams]
  unfold detectExtremeOIConcentration at hdet
  have hmm := collectSignals_mem_iff defaultStrategyParams spotPrice _ sigs hdet
  have hsF : s ∈ L.filter
      (fun t => |t.strike - spotPrice| ≤ (defaultStrategyParams.atmStrikesLimit : ℚ) * 50) :=
    List.mem_filter.2 ⟨hs, by simpa [hlim] using hatm⟩
  have hback : ∀ g ∈ sigs, g.strike = s.strike →
      signalForStrike defaultStrategyParams spotPrice s = .ok (some g) := by
    intro g hg hgst
    rcases (hmm g).1 hg with ⟨t, htF, hsig⟩
    obtain ⟨-, hts, -⟩ := signalForStrike_default_inv spotPrice t g hsig
    have htL : t ∈ L := (List.mem_filter.1 htF).1
    have hteq : t = s :=
      List.inj_on_of_nodup_map hnd htL hs (by rw [← hts, hgst])
    rwa [hteq] at hsig
  refine ⟨⟨?_, ?_⟩, ⟨?_, ?_⟩, ?_⟩
  · rintro ⟨g, hg, hgst, hgty⟩
    obtain ⟨-, -, hdisj⟩ :=
      signalForStrike_default_inv spotPrice s g (hback g hg hgst)
    rcases hdisj with ⟨-, hlt⟩ | ⟨hty, -⟩
    · exact hlt
    · rw [hgty] at hty
      exact absurd hty (by decide)
  · intro hlt
    obtain ⟨g, hsig, hty, hst⟩ :=
      signalForStrike_default_put_emit spotPrice s hc hp hcv hpv hlt
    exact ⟨g, (hmm g).2 ⟨s, hsF, hsig⟩, hst, hty⟩
  · rintro ⟨g, hg, hgst, hgty⟩
    obtain ⟨-, -, hdisj⟩ :=
      signalForStrike_default_inv spotPrice s g (hback g hg hgst)
    rcases hdisj with ⟨hty, -⟩ | ⟨-, hgt⟩
    · rw [hgty] at hty
      exact absurd hty (by decide)
    · exact hgt
  · intro hgt
    obtain ⟨g, hsig, hty, hst⟩ :=
      signalForStrike_default_call_emit spotPrice s hc hcv hpv hgt
    exact ⟨g, (hmm g).2 ⟨s, hsF, hsig⟩, hst, hty⟩
  · intro h1 h2 g hg hgst
    obtain ⟨-, -, hdisj⟩ :=
      signalForStrike_default_inv spotPrice s g (hback g hg hgst)
    rcases hdisj with ⟨-, hlt⟩ | ⟨-, hgt⟩
    · linarith
    · linarith

theorem C1_extreme_detection_iff_witness :
    ((∃ g ∈ [sigPut95], g.strike = strikeSignalSrc.strike ∧ g.type = "PUT") ↔
      strikeSignalSrc.putOi / strikeSignalSrc.callOi < 1/2) ∧
    ((∃ g ∈ [sigPut95], g.strike = strikeSignalSrc.strike ∧ g.type = "CALL") ↔
      2 < strikeSignalSrc.putOi / strikeSignalSrc.callOi) ∧
    (1/2 ≤ strikeSignalSrc.putOi / strikeSignalSrc.callOi →
      strikeSignalSrc.putOi / strikeSignalSrc.callOi ≤ 2 →
      ∀ g ∈ [sigPut95], g.strike ≠ strikeSignalSrc.strike) :=
  C1_extreme_detection_iff [strikeSignalSrc] 100 [sigPut95] strikeSignalSrc
    (by decide) (by with_unfolding_all decide) (by simp)
    (by with_unfolding_all decide) (by with_unfolding_all decide)
    (by with_unfolding_all decide) (by with_unfolding_all decide)
    (by with_unfolding_all decide)

/-- C1 counterexample: an ATM strike with positive call OI and zero put
OI has ratio `0 < 1/2`, yet the detector does not emit a PUT signal for
it — the whole call raises ZeroDivisionError inside the confidence
computation (`1 / oi_ratio`) instead of returning a signal list. -/
theorem C1_counterexample :
    strikeZeroPutA.putOi / strikeZeroPutA.callOi < 1/2 ∧
    0 < strikeZeroPutA.callOi ∧
    |strikeZeroPutA.strike - 100| ≤ 300 ∧
    detectExtremeOIConcentration defaultStrategyParams [strikeZeroPutA] 100 =
      .error () := by
  with_unfolding_all decide

/-- C6 (amended): `detect_extreme_oi_concentration` returns a signal list
without raising whenever every ATM strike with nonzero call OI also has
nonzero put OI; the `call_oi == 0` division is skipped as claimed, but a
zero put OI reaches the unguarded `1 / oi_ratio` of the confidence
computation and raises ZeroDivisionError. -/
theorem C6_detect_no_exception (L : List Strike) (spotPrice : ℚ)
    (h : ∀ s ∈ L, |s.strike - spotPrice| ≤ 300 → s.callOi ≠ 0 → s.putOi ≠ 0) :
    ∃ sigs, detectExtremeOIConcentration defaultStrategyParams L spotPrice = .ok sigs := by
  have hlim : ((defaultStrategyParams.atmStrikesLimit : ℚ) * 50) = 300 := by
    norm_num [defaultStrategyParams]
  unfold detectExtremeOIConcentration
  apply collectSignals_total
  intro s hsF
  have hsL := (List.mem_filter.1 hsF).1
  have hatm : |s.strike - spotPrice| ≤ 300 := by
    have hb := of_decide_eq_true (List.mem_filter.1 hsF).2
    rwa [hlim] at hb
  exact signalForStrike_default_ok spotPrice s (h s hsL hatm)

theorem C6_detect_no_exception_witness :
    ∃ sigs, detectExtremeOIConcentration defaultStrategyParams
      [strikeRatioQuarter] 100 = .ok sigs :=
  C6_detect_no_exception [strikeRatioQuarter] 100 (by with_unfolding_all decide)

/-- C6 counterexample: a strike with non-negative OI fields (call OI 1,
put OI 0) makes `detect_extreme_oi_concentration` raise instead of
returning a signal list. -/
theorem C6_counterexample :
    0 ≤ strikeZeroPutB.callOi ∧ 0 ≤ strikeZeroPutB.putOi ∧
    detectExtremeOIConcentration defaultStrategyParams [strikeZeroPutB] 100 =
      .error () := by
  with_unfolding_all decide

/-- C5 (amended): `calculate_market_sentiment` returns a score and a
confidence in `[0, 100]` for every record list whose call-OI total and
put-OI total are both positive, and returns NEUTRAL/50/0 for an empty
list or a zero grand total; when exactly one of the two totals is zero
(with the other positive) it raises ZeroDivisionError instead. -/
theorem C5_sentiment_bounds (L : List Strike) (spotPrice : ℚ)
    (hnn : ∀ s ∈ L, 0 ≤ s.callOi ∧ 0 ≤ s.putOi) :
    (L = [] → calculateMarketSentiment L spotPrice = .ok ⟨"NEUTRAL", 50, 0, none⟩) ∧
    ((L.map (fun t => t.callOi)).sum + (L.map (fun t => t.putOi)).sum = 0 →
      calculateMarketSentiment L spotPrice = .ok ⟨"NEUTRAL", 50, 0, none⟩) ∧
    (0 < (L.map (fun t => t.callOi)).sum → 0 < (L.map (fun t => t.putOi)).sum →
      ∃ r, calculateMarketSentiment L spotPrice = .ok r ∧
        0 ≤ r.score ∧ r.score ≤ 100 ∧ 0 ≤ r.confidence ∧ r.confidence ≤ 100) := by
  refine ⟨?_, ?_, ?_⟩
  · intro h
    subst h
    rfl
  · intro hzero
    unfold calculateMarketSentiment
    by_cases hL : L = []
    · rw [if_pos hL]
    · rw [if_neg hL]
      dsimp only
      rw [if_pos hzero]
  · intro hcpos hppos
    have hL : L ≠ [] := by
      rintro rfl
      simp at hcpos
    unfold calculateMarketSentiment
    rw [if_neg hL]
    dsimp only
    have htot : (0:ℚ) < (L.map (fun t => t.callOi)).sum + (L.map (fun t => t.putOi)).sum := by
      linarith
    rw [if_neg (ne_of_gt htot), if_neg (ne_of_gt hcpos)]
    have hqpos : 0 < (L.map (fun t => t.putOi)).sum / (L.map (fun t => t.callOi)).sum :=
      div_pos hppos hcpos
    have hconf0 : (0:ℚ) ≤ min 100
        (((L.map (fun t => t.callOi)).sum + (L.map (fun t => t.putOi)).sum) / 1000000 * 100) :=
      le_min (by norm_num)
        (mul_nonneg (div_nonneg htot.le (by norm_num)) (by norm_num))
    have hconf100 : min 100
        (((L.map (fun t => t.callOi)).sum + (L.map (fun t => t.putOi)).sum) / 1000000 * 100) ≤ 100 :=
      min_le_left _ _
    obtain ⟨hcb0, hcb100⟩ := pyRound_bounds _ 1 hconf0 hconf100
    by_cases hb : 12/10 < (L.map (fun t => t.putOi)).sum / (L.map (fun t => t.callOi)).sum
    · rw [if_pos hb]
      have hs0 : (0:ℚ) ≤ min 100
          (50 + ((L.map (fun t => t.putOi)).sum / (L.map (fun t => t.callOi)).sum - 1) * 25) :=
        le_min (by norm_num) (by linarith)
      obtain ⟨h1, h2⟩ := pyRound_bounds _ 1 hs0 (min_le_left _ _)
      exact ⟨_, rfl, h1, h2, hcb0, hcb100⟩
    · rw [if_neg hb]
      by_cases hbl : (L.map (fun t => t.putOi)).sum / (L.map (fun t => t.callOi)).sum < 8/10
      · rw [if_pos hbl, if_neg (ne_of_gt hqpos)]
        have hinv : 1 < 1 / ((L.map (fun t => t.putOi)).sum / (L.map (fun t => t.callOi)).sum) := by
          rw [lt_div_iff₀ hqpos]
          linarith
        have hs0 : (0:ℚ) ≤ max 0
            (50 - (1 / ((L.map (fun t => t.putOi)).sum / (L.map (fun t => t.callOi)).sum) - 1) * 25) :=
          le_max_left 0 _
        have hs100 : max 0
            (50 - (1 / ((L.map (fun t => t.putOi)).sum / (L.map (fun t => t.callOi)).sum) - 1) * 25) ≤ 100 :=
          max_le (by norm_num) (by nlinarith)
        obtain ⟨h1, h2⟩ := pyRound_bounds _ 1 hs0 hs100
        exact ⟨_, rfl, h1, h2, hcb0, hcb100⟩
      · rw [if_neg hbl]
        obtain ⟨h1, h2⟩ := pyRound_bounds (50:ℚ) 1 (by norm_num) (by norm_num)
        exact ⟨_, rfl, h1, h2, hcb0, hcb100⟩

theorem C5_sentiment_bounds_witness :
    ∃ r, calculateMarketSentiment [strikeBalanced] 100 = .ok r ∧
      0 ≤ r.score ∧ r.score ≤ 100 ∧ 0 ≤ r.confidence ∧ r.confidence ≤ 100 :=
  (C5_sentiment_bounds [strikeBalanced] 100 (by with_unfolding_all decide)).2.2
    (by with_unfolding_all decide) (by with_unfolding_all decide)

/-- C5 counterexample: a record list with non-negative OI fields (its
only strike has call OI 0 and put OI 5) makes `calculate_market_sentiment`
raise ZeroDivisionError on `total_put_oi / total_call_oi` instead of
returning a result. -/
theorem C5_counterexample :
    (∀ s ∈ [strikeCallZero], 0 ≤ s.callOi ∧ 0 ≤ s.putOi) ∧
    calculateMarketSentiment [strikeCallZero] 100 = .error () := by
  with_unfolding_all decide

theorem processLoop_all_zero (sp : ℚ) :
    ∀ (rawData : List RawStrike), (∀ rs ∈ rawData, rs.ceOi + rs.peOi = 0) →
      processLoop sp rawData = ([], [])
  | [], _ => rfl
  | rs :: rest, h => by
    simp only [processLoop]
    rw [processLoop_all_zero sp rest (fun t ht => h t (List.mem_cons_of_mem rs ht))]
    rw [if_pos (h rs (List.mem_cons_self rs rest))]

/-- C7 (amended): when every strike of the raw snapshot has zero total OI
all strikes are dropped, and the analytics yield sentiment NEUTRAL/50/0,
volatility regime LOW with iv 0 (the empty-records guard of
`calculate_volatility` precedes the ATM-window UNKNOWN guard, so the
regime is LOW rather than the claimed UNKNOWN), and a HOLD decision. -/
theorem C7_zero_oi_snapshot (raw : RawRecords) (symbol : String)
    (h : ∀ rs ∈ raw.data, rs.ceOi + rs.peOi = 0) :
    ∃ res, processOptionsData defaultEngineParams raw symbol = .ok res ∧
      res.sentiment = ⟨"NEUTRAL", 50, 0, none⟩ ∧
      res.volatility = ⟨0, "LOW", none⟩ ∧
      res.tradingDecision.action = "HOLD" ∧
      res.data = [] ∧ res.signals = [] := by
  unfold processOptionsData
  dsimp only
  rw [processLoop_all_zero raw.underlyingValue raw.data h]
  exact ⟨_, rfl, rfl, rfl, rfl, rfl, rfl⟩

theorem C7_zero_oi_snapshot_witness :
    ∃ res, processOptionsData defaultEngineParams rawZeroOi "NIFTY" = .ok res ∧
      res.sentiment = ⟨"NEUTRAL", 50, 0, none⟩ ∧
      res.volatility = ⟨0, "LOW", none⟩ ∧
      res.tradingDecision.action = "HOLD" ∧
      res.data = [] ∧ res.signals = [] :=
  C7_zero_oi_snapshot rawZeroOi "NIFTY" (by with_unfolding_all decide)

/-- C7 counterexample: on a snapshot whose only strike has zero total OI
the produced volatility regime is LOW, not the claimed UNKNOWN. -/
theorem C7_counterexample :
    (processOptionsData defaultEngineParams rawZeroOi "X").toOption.map
      (fun r => r.volatility.volatilityRegime) = some "LOW" ∧
    "LOW" ≠ "UNKNOWN" := by
  with_unfolding_all decide

/-- C8: evaluating `generate_trading_decision` at a non-empty signal list
(one CALL signal, confidence 90), BULLISH sentiment and a MEDIUM (not
HIGH) volatility regime yields position size 1.8% — the multiplier used
is 1.0, not 1.2, because the code compares the sentiment label BULLISH
with the signal type CALL by string equality and they are never equal; the
claimed value `round(min(0.1, 0.02·0.9·1.2)·100, 1) = 2.2` differs. -/
theorem C8_sentiment_agreement_dead :
    (generateTradingDecision defaultEngineParams [bullCallSig]
      bullishSentiment mediumVolatility 100).positionSize = 9/5 ∧
    (9/5 : ℚ) ≠ pyRound ((min defaultEngineParams.maxPositionSize
      (defaultEngineParams.maxRiskPerTrade * (bullCallSig.confidence / 100) * (12/10))) * 100) 1 ∧
    bullishSentiment.sentiment = "BULLISH" ∧ bullCallSig.type = "CALL" ∧
    mediumVolatility.volatilityRegime ≠ "HIGH" ∧
    (generateTradingDecision defaultEngineParams [bullCallSig]
      bullishSentiment mediumVolatility 100).action = "BUY" := by
  with_unfolding_all decide

set_option maxRecDepth 3000 in
/-- C3: `close_position` on an existing open position does not return a
boolean — it raises NameError (`position_type` is read but never
assigned) — and the exception propagates out of
`monitor_and_exit_positions`, aborting the loop: with two open positions
both past the profit target, the first close faults and the second
position is never evaluated; both remain OPEN. -/
theorem C3_close_position_raises :
    closePosition stPair 2 100 (ExitReason.profitTarget 100) = .error () ∧
    (monitorAndExitPositions defaultStrategyParams stPair mdSpotOnly).2 = false ∧
    (monitorAndExitPositions defaultStrategyParams stPair mdSpotOnly).1.dbPositions.map
      (fun q => q.status) = ["OPEN", "OPEN"] := by
  with_unfolding_all decide

set_option maxRecDepth 3000 in
/-- C4: a cycle run on a snapshot whose `data` records show ratio
`16/10 ≥ 3/2` at the strike of an open LONG_PUT position (profit target
not reached) does not close it with reason "OI normalized" — the exit
evaluator looks the records up under the `strikes_data` key, which the
cycle snapshot does not carry, so the position stays OPEN and the cycle
reports zero closes. -/
theorem C4_oi_normalization_dead_in_cycle :
    (3/2 : ℚ) ≤ strikeNormed.putOi / strikeNormed.callOi ∧
    ((runStrategyCycle defaultStrategyParams 100000 stNorm mdNormCycle).1.dbPositions.map
      (fun q => (q.status, q.exitReason))) = [("OPEN", none)] ∧
    (runStrategyCycle defaultStrategyParams 100000 stNorm mdNormCycle).2 = ⟨0, 0, 0, 0⟩ := by
  with_unfolding_all decide

set_option maxRecDepth 3000 in
/-- C9 counterexample: with two snapshot entries sharing strike 100 — the
first with ratio 2, the second with ratio 1/10 — the detector emits a PUT
signal from the second, but evaluating the freshly opened position against
the same snapshot finds the first entry (ratio `2 ≥ 3/2`) and exits with
"OI normalized" immediately. -/
theorem C9_counterexample :
    detectExtremeOIConcentration defaultStrategyParams listDup 100 = .ok [sigPut95] ∧
    (getOpenPositions (executeSignal defaultStrategyParams 100000 emptyDB sigPut95 mdDup).1).map
      (fun v => shouldExitPosition defaultStrategyParams v mdDup) =
      [.ok (true, ExitReason.oiNormalized 2)] := by
  with_unfolding_all decide

set_option maxRecDepth 3000 in
/-- C10 counterexample: a cycle that detects one signal and opens one
position before the exit evaluation faults (a stale position past its
profit target makes `close_position` raise) returns
`{signals_detected: 1, positions_opened: 1, positions_closed: 0,
total_pnl: 0}` — not the initialized zero counts the claim promises for
an error raised during the cycle. -/
theorem C10_counterexample :
    (runStrategyCycle defaultStrategyParams 100000 stStale mdStale).2 = ⟨1, 1, 0, 0⟩ ∧
    (⟨1, 1, 0, 0⟩ : CycleResults) ≠ ⟨0, 0, 0, 0⟩ ∧
    monitorAndExitPositions defaultStrategyParams
        (runStrategyCycle defaultStrategyParams 100000 stStale mdStale).1 mdStale =
      ((runStrategyCycle defaultStrategyParams 100000 stStale mdStale).1, false) := by
  with_unfolding_all decide

theorem closePosition_ok_state (st : DBState) (pid : ℕ) (x : ℚ) (r : ExitReason)
    (st' : DBState) (b : Bool) (hok : closePosition st pid x r = .ok (st', b)) :
    st' = st := by
  unfold closePosition at hok
  rcases h : st.dbPositions.find? (fun p => p.id = pid) with _ | pos <;> rw [h] at hok
  · injection hok with hok
    injection hok with h1 h2
    exact h1.symm
  · cases hok

theorem closedCount_saveMarketData (st : DBState) (sym : String) (sp : ℚ)
    (strikes : List Strike) (sent : Option SentimentResult)
    (vol : Option VolatilityResult) :
    closedCount (saveMarketData st sym sp strikes sent vol) = closedCount st := rfl

theorem closedCount_openPosition (st : DBState) (sid : ℕ) (sym pt : String)
    (e : ℚ) (q : ℤ) (sl tp : Option ℚ) :
    closedCount (openPosition st sid sym pt e q sl tp).1 = closedCount st := by
  simp [openPosition, closedCount, List.filter_append]

theorem closedCount_executeSignal (p : StrategyParams) (cap : ℚ) (st : DBState)
    (sig : StratSignal) (md : MarketData) :
    closedCount (executeSignal p cap st sig md).1 = closedCount st := by
  unfold executeSignal
  dsimp only
  by_cases h : md.spotPrice.getD 0 = 0
  · rw [if_pos h]
  · rw [if_neg h]
    simp [saveTradingSignal, openPosition, closedCount, List.filter_append]

theorem closedCount_executeAll (p : StrategyParams) (cap : ℚ) (sym : String)
    (md : MarketData) :
    ∀ (sigs : List StratSignal) (st : DBState),
      closedCount (executeAll p cap sym md st sigs).1 = closedCount st
  | [], _ => rfl
  | sig :: rest, st => by
    simp only [executeAll]
    rcases hE : executeSignal p cap st { sig with symbol := some sym } md with ⟨st1, pid⟩
    rcases hA : executeAll p cap sym md st1 rest with ⟨st2, opened⟩
    dsimp only
    have h1 : closedCount st1 = closedCount st := by
      have := closedCount_executeSignal p cap st { sig with symbol := some sym } md
      rw [hE] at this
      exact this
    have h2 : closedCount st2 = closedCount st1 := by
      have := closedCount_executeAll p cap sym md rest st1
      rw [hA] at this
      exact this
    rw [h2, h1]

theorem closedCount_monitorLoop (p : StrategyParams) (md : MarketData) :
    ∀ (views : List PositionView) (st : DBState),
      closedCount (monitorLoop p md st views).1 = closedCount st
  | [], _ => rfl
  | v :: rest, st => by
    simp only [monitorLoop]
    rcases hS : shouldExitPosition p v md with e | ⟨b, reason⟩
    · rfl
    · cases b
      · exact closedCount_monitorLoop p md rest st
      · dsimp only
        rcases hC : closePosition st v.id (md.spotPrice.getD v.entryPrice) reason
          with e | ⟨st1, suc⟩
        · rfl
        · dsimp only
          rw [closedCount_monitorLoop p md rest st1,
            closePosition_ok_state st v.id _ reason st1 suc hC]

theorem closedCount_monitorAndExit (p : StrategyParams) (st : DBState)
    (md : MarketData) :
    closedCount (monitorAndExitPositions p st md).1 = closedCount st :=
  closedCount_monitorLoop p md (getOpenPositions st) st

/-- C2: the `positions_closed` count reported by `run_strategy_cycle`
always equals the number of positions actually moved to CLOSED during the
cycle's exit evaluation.  Both sides are zero on every input: the results
dictionary never updates the `positions_closed` entry, and no close ever
completes because `close_position` faults on any found position, so the
CLOSED row count of the store is unchanged by a cycle. -/
theorem C2_positions_closed_count (p : StrategyParams) (capital : ℚ)
    (st : DBState) (md : MarketData) :
    closedCount (runStrategyCycle p capital st md).1 =
      closedCount st + ((runStrategyCycle p capital st md).2).positionsClosed := by
  unfold runStrategyCycle
  dsimp only
  by_cases hg : md.data.getD [] = [] ∨ md.spotPrice.getD 0 = 0
  · rw [if_pos hg]
    dsimp only
    omega
  · rw [if_neg hg]
    rcases hd : detectExtremeOIConcentration p (md.data.getD []) (md.spotPrice.getD 0)
      with e | signals
    · dsimp only
      rw [closedCount_saveMarketData]
      omega
    · dsimp only
      rcases hE : executeAll p capital (md.symbol.getD "UNKNOWN") md
          (saveMarketData st (md.symbol.getD "UNKNOWN") (md.spotPrice.getD 0)
            (md.data.getD []) md.sentiment md.volatility) signals with ⟨st2, opened⟩
      dsimp only
      have h2 : closedCount st2 = closedCount st := by
        have := closedCount_executeAll p capital (md.symbol.getD "UNKNOWN") md signals
          (saveMarketData st (md.symbol.getD "UNKNOWN") (md.spotPrice.getD 0)
            (md.data.getD []) md.sentiment md.volatility)
        rw [hE] at this
        rw [this, closedCount_saveMarketData]
      rcases hM : monitorAndExitPositions p st2 md with ⟨st3, flag⟩
      have h3 : closedCount st3 = closedCount st2 := by
        have := closedCount_monitorAndExit p st2 md
        rw [hM] at this
        exact this
      cases flag
      · dsimp only
        rw [h3, h2]
        omega
      · dsimp only
        rw [h3, h2]
        omega

theorem shouldExit_longPut_no_oiNorm (v : PositionView) (md : MarketData)
    (L : List Strike) (s : Strike) (spotPrice : ℚ)
    (hvt : v.positionType = "LONG_PUT")
    (hvs : v.strikePrice = s.strike)
    (hve : v.entryPrice = spotPrice)
    (hvsl : v.stopLoss = some (spotPrice * (103/100)))
    (hspot : spotPrice ≠ 0)
    (hmd1 : md.spotPrice = some spotPrice)
    (hmd2 : md.strikesData = some L)
    (hnd : (L.map (fun t => t.strike)).Nodup)
    (hsL : s ∈ L)
    (hr : s.putOi / s.callOi < 1/2) :
    ∀ b q, shouldExitPosition defaultStrategyParams v md ≠ .ok (b, ExitReason.oiNormalized q) := by
  intro b q hcontra
  have hnorm : defaultStrategyParams.oiNormalizationThreshold = (3/2 : ℚ) := by
    norm_num [defaultStrategyParams]
  unfold shouldExitPosition at hcontra
  rw [hmd1] at hcontra
  dsimp only [Option.getD] at hcontra
  rw [if_neg hspot] at hcontra
  obtain ⟨pnl, hpnl⟩ : ∃ pnl, calculateCurrentPnlPct v spotPrice = .ok pnl := by
    unfold calculateCurrentPnlPct
    rw [hve, if_neg hspot]
    split_ifs
    · exact ⟨_, rfl⟩
    · exact ⟨_, rfl⟩
  rw [hpnl] at hcontra
  dsimp only at hcontra
  by_cases h15 : defaultStrategyParams.profitTargetPct ≤ pnl
  · rw [if_pos h15] at hcontra
    simp at hcontra
  · rw [if_neg h15] at hcontra
    rw [hmd2] at hcontra
    dsimp only [Option.getD] at hcontra
    rw [hvs, find_strike_nodup L hnd s hsL] at hcontra
    dsimp only at hcontra
    simp only [hvt, strUpper_LONG_PUT] at hcontra
    by_cases hcPos : 0 < s.callOi
    · rw [if_pos hcPos] at hcontra
      simp only [or_true, if_true] at hcontra
      rw [if_neg (by rw [hnorm]; exact not_le.2 (by linarith))] at hcontra
      dsimp only at hcontra
      rw [hvsl] at hcontra
      dsimp only [Option.getD] at hcontra
      split_ifs at hcontra <;> simp at hcontra
    · rw [if_neg hcPos] at hcontra
      dsimp only at hcontra
      rw [hvsl] at hcontra
      dsimp only [Option.getD] at hcontra
      split_ifs at hcontra <;> simp at hcontra

theorem shouldExit_longCall_no_oiNorm (v : PositionView) (md : MarketData)
    (L : List Strike) (s : Strike) (spotPrice : ℚ)
    (hvt : v.positionType = "LONG_CALL")
    (hvs : v.strikePrice = s.strike)
    (hve : v.entryPrice = spotPrice)
    (hvsl : v.stopLoss = some (spotPrice * (97/100)))
    (hspot : spotPrice ≠ 0)
    (hmd1 : md.spotPrice = some spotPrice)
    (hmd2 : md.strikesData = some L)
    (hnd : (L.map (fun t => t.strike)).Nodup)
    (hsL : s ∈ L)
    (hr : 2 < s.putOi / s.callOi) :
    ∀ b q, shouldExitPosition defaultStrategyParams v md ≠ .ok (b, ExitReason.oiNormalized q) := by
  intro b q hcontra
  have hnorm : (1 : ℚ) / defaultStrategyParams.oiNormalizationThreshold = 2/3 := by
    norm_num [defaultStrategyParams]
  unfold shouldExitPosition at hcontra
  rw [hmd1] at hcontra
  dsimp only [Option.getD] at hcontra
  rw [if_neg hspot] at hcontra
  obtain ⟨pnl, hpnl⟩ : ∃ pnl, calculateCurrentPnlPct v spotPrice = .ok pnl := by
    unfold calculateCurrentPnlPct
    rw [hve, if_neg hspot]
    split_ifs
    · exact ⟨_, rfl⟩
    · exact ⟨_, rfl⟩
  rw [hpnl] at hcontra
  dsimp only at hcontra
  by_cases h15 : defaultStrategyParams.profitTargetPct ≤ pnl
  · rw [if_pos h15] at hcontra
    simp at hcontra
  · rw [if_neg h15] at hcontra
    rw [hmd2] at hcontra
    dsimp only [Option.getD] at hcontra
    rw [hvs, find_strike_nodup L hnd s hsL] at hcontra
    dsimp only at hcontra
    simp only [hvt, strUpper_LONG_CALL] at hcontra
    by_cases hcPos : 0 < s.callOi
    · rw [if_pos hcPos] at hcontra
      simp only [true_or, if_true] at hcontra
      rw [if_neg (by decide :
        ¬(("LONG_CALL":String) = "SHORT_CALL" ∨ ("LONG_CALL":String) = "LONG_PUT"))] at hcontra
      rw [if_neg (by rw [hnorm]; exact not_le.2 (by linarith))] at hcontra
      dsimp only at hcontra
      rw [hvsl] at hcontra
      dsimp only [Option.getD] at hcontra
      split_ifs at hcontra <;> simp at hcontra
    · rw [if_neg hcPos] at hcontra
      dsimp only at hcontra
      rw [hvsl] at hcontra
      dsimp only [Option.getD] at hcontra
      split_ifs at hcontra <;> simp at hcontra

/-- C9 (amended): for every signal emitted by
`detect_extreme_oi_concentration` under the default thresholds, opening a
position from it with `execute_signal` and immediately evaluating that
position with `should_exit_position` against the same snapshot (its
records offered under the `strikes_data` key the evaluator reads) never
yields an exit with reason "OI normalized" — provided the snapshot's
strike values are distinct.  With duplicated strike values the exit
lookup may hit a different record at the same strike and the round trip
fails (see the counterexample). -/
theorem C9_no_immediate_oi_normalization (L : List Strike) (spotPrice : ℚ)
    (sigs : List StratSignal) (sig : StratSignal) (capital : ℚ) (md : MarketData)
    (hnd : (L.map (fun t => t.strike)).Nodup)
    (hdet : detectExtremeOIConcentration defaultStrategyParams L spotPrice = .ok sigs)
    (hsig : sig ∈ sigs)
    (hspot : spotPrice ≠ 0)
    (hmd1 : md.spotPrice = some spotPrice)
    (hmd2 : md.strikesData = some L) :
    ∀ v ∈ getOpenPositions (executeSignal defaultStrategyParams capital emptyDB sig md).1,
      ∀ b q, shouldExitPosition defaultStrategyParams v md ≠ .ok (b, ExitReason.oiNormalized q) := by
  unfold detectExtremeOIConcentration at hdet
  have hmm := collectSignals_mem_iff defaultStrategyParams spotPrice _ sigs hdet
  rcases (hmm sig).1 hsig with ⟨s, hsF, hsigS⟩
  have hsL : s ∈ L := (List.mem_filter.1 hsF).1
  obtain ⟨-, hstrike, hdisj⟩ := signalForStrike_default_inv spotPrice s sig hsigS
  intro v hv b q
  rcases hdisj with ⟨hty, hrlt⟩ | ⟨hty, hrgt⟩
  · simp [executeSignal, hmd1, Option.getD, saveTradingSignal, openPosition,
      calculatePositionSize, emptyDB, getOpenPositions, hty, hspot] at hv
    exact shouldExit_longPut_no_oiNorm v md L s spotPrice
      (by rw [hv]) (by rw [hv]; exact hstrike) (by rw [hv]) (by rw [hv])
      hspot hmd1 hmd2 hnd hsL hrlt b q
  · simp [executeSignal, hmd1, Option.getD, saveTradingSignal, openPosition,
      calculatePositionSize, emptyDB, getOpenPositions, hty, hspot] at hv
    exact shouldExit_longCall_no_oiNorm v md L s spotPrice
      (by rw [hv]) (by rw [hv]; exact hstrike) (by rw [hv]) (by rw [hv])
      hspot hmd1 hmd2 hnd hsL hrgt b q

set_option maxRecDepth 3000 in
theorem C9_no_immediate_oi_normalization_witness :
    shouldExitPosition defaultStrategyParams
      ⟨1, "UNKNOWN", "LONG_PUT", 100, 666, some 103, some 85, "PUT", 100, 95⟩
      mdSingleSrc ≠ Except.ok (true, ExitReason.oiNormalized (1/10)) :=
  C9_no_immediate_oi_normalization [strikeSignalSrc] 100 [sigPut95] sigPut95
    100000 mdSingleSrc (by decide) (by with_unfolding_all decide) (by simp)
    (by decide) rfl rfl
    ⟨1, "UNKNOWN", "LONG_PUT", 100, 666, some 103, some 85, "PUT", 100, 95⟩
    (by with_unfolding_all decide) true (1/10)

/-- C10 (amended): `run_strategy_cycle` is total at its interface — the
embedding is a total function returning the four-field results record,
mirroring the body-wide `try/except` — and (1) a missing/empty strike
list or falsy spot price returns the zero results with the store
untouched; (2) an exception from the detector returns the zero results;
(3) when detection succeeds on a well-formed snapshot, the returned
`signals_detected` equals the number of detected signals and
`positions_closed` is 0.  An exception raised later in the cycle does
NOT reset the counts to zero: the results as mutated so far are
returned (see the counterexample, where an aborted exit pass still
reports one signal and one opened position). -/
theorem C10_cycle_interface_total (p : StrategyParams) (capital : ℚ)
    (st : DBState) (md : MarketData) :
    ((md.data.getD [] = [] ∨ md.spotPrice.getD 0 = 0) →
      runStrategyCycle p capital st md = (st, ⟨0, 0, 0, 0⟩)) ∧
    (∀ e, md.data.getD [] ≠ [] → md.spotPrice.getD 0 ≠ 0 →
      detectExtremeOIConcentration p (md.data.getD []) (md.spotPrice.getD 0) = .error e →
      (runStrategyCycle p capital st md).2 = ⟨0, 0, 0, 0⟩) ∧
    (∀ sigs, md.data.getD [] ≠ [] → md.spotPrice.getD 0 ≠ 0 →
      detectExtremeOIConcentration p (md.data.getD []) (md.spotPrice.getD 0) = .ok sigs →
      (runStrategyCycle p capital st md).2.signalsDetected = sigs.length ∧
      (runStrategyCycle p capital st md).2.positionsClosed = 0) := by
  refine ⟨?_, ?_, ?_⟩
  · intro hc
    unfold runStrategyCycle
    dsimp only
    rw [if_pos hc]
  · intro e h1 h2 hdet
    unfold runStrategyCycle
    dsimp only
    rw [if_neg (not_or_intro h1 h2), hdet]
  · intro sigs h1 h2 hdet
    unfold runStrategyCycle
    dsimp only
    rw [if_neg (not_or_intro h1 h2), hdet]
    dsimp only
    rcases hE : executeAll p capital (md.symbol.getD "UNKNOWN") md
      (saveMarketData st (md.symbol.getD "UNKNOWN") (md.spotPrice.getD 0)
        (md.data.getD []) md.sentiment md.volatility) sigs with ⟨st2, opened⟩
    rcases hM : monitorAndExitPositions p st2 md with ⟨st3, b⟩
    cases b <;> exact ⟨rfl, rfl⟩

theorem C10_cycle_interface_total_witness :
    runStrategyCycle defaultStrategyParams 100000 emptyDB mdNoData =
      (emptyDB, ⟨0, 0, 0, 0⟩) :=
  (C10_cycle_interface_total defaultStrategyParams 100000 emptyDB mdNoData).1
    (by with_unfolding_all decide)
